import Mathlib

/-!
Shallow embedding of the audio / live-chat core of the
`movie-subtitle-to-story` web client, translated from
`src/constants.ts` (the audio utility functions re-exported through
`services/geminiService.ts`) and `src/components/LiveChat.tsx`.

Modelling conventions:
* JavaScript numbers that only ever hold exactly representable values on
  the studied paths (samples, sample multiples of powers of two, clock
  times, durations) are modelled as `ℚ`; every arithmetic operation the
  source performs on them (multiply by 32768, truncate, divide by 32768,
  max, add) is exact in binary64 on these values, so the `ℚ` model is
  faithful.
* Machine integer behaviour is explicit: the ECMAScript `ToInt16`
  conversion performed by an `Int16Array` store (truncate toward zero,
  then wrap modulo 2^16 into `[-32768, 32768)`) is spelled out.
* Fallible operations are `Option`-valued: `none` models a thrown
  exception (`atob` on bad input, the `RangeError` thrown by viewing an
  odd-length buffer as an `Int16Array`, the `NotSupportedError` thrown by
  `createBuffer` on a zero frame count).
* React refs / state cells become fields of explicit state structures and
  the handlers become state-transition functions.
-/

namespace SubtitleStory

/-! ## Constants (`src/constants.ts`) -/

def INPUT_AUDIO_SAMPLE_RATE : ℕ := 16000

def OUTPUT_AUDIO_SAMPLE_RATE : ℕ := 24000

def AUDIO_NUM_CHANNELS : ℕ := 1

/-! ## Machine-integer helpers (ECMAScript semantics) -/

/-- Wrap an integer into the signed 16-bit range `[-32768, 32768)`, as the
final step of ECMAScript `ToInt16` (used by an `Int16Array` store) and as
the reinterpretation of an unsigned 16-bit read as a signed value. -/
def toInt16 (n : ℤ) : ℤ :=
  if 32768 ≤ n % 65536 then n % 65536 - 65536 else n % 65536

/-- Truncation toward zero of a rational, the integer-conversion step of
ECMAScript `ToInt16` applied to a (finite) number (`Int.tdiv` truncates
toward zero; see `ratTrunc_eq_floor_ceil`). -/
def ratTrunc (q : ℚ) : ℤ :=
  q.num.tdiv q.den

/-- The value stored by `int16[i] = q` in JavaScript: `ToInt16 q`. -/
def jsStoreInt16 (q : ℚ) : ℤ :=
  toInt16 (ratTrunc q)

/-- Little-endian byte serialization of one element of an `Int16Array`
buffer (JavaScript typed arrays are little-endian on the platforms this
client targets). -/
def int16ToBytes (v : ℤ) : List ℕ :=
  let u := (v % 65536).toNat
  [u % 256, u / 256]

/-- Little-endian signed 16-bit reads of consecutive byte pairs: the
`new Int16Array(data.buffer)` view in `decodeAudioData`. The bytes come
from a `Uint8Array`, hence are below 256. -/
def bytesToInt16 : List ℕ → List ℤ
  | b0 :: b1 :: rest => toInt16 ((b0 : ℤ) + 256 * (b1 : ℤ)) :: bytesToInt16 rest
  | _ => []

/-! ## Base64 (`encode` / `decode` in `src/constants.ts`, i.e. `btoa` /
`atob` over a byte-per-character binary string) -/

def base64Chars : List Char :=
  "ABCDEFGHIJKLMNOPQRSTUVWXYZabcdefghijklmnopqrstuvwxyz0123456789+/".toList

def b64Char (n : ℕ) : Char := base64Chars.getD n 'A'

def b64Index (c : Char) : Option ℕ := base64Chars.findIdx? (fun x => x = c)

/-- Standard base64 of a byte list, modelling `btoa` applied to the binary
string built by `encode` from a `Uint8Array`. -/
def b64Encode : List ℕ → List Char
  | a :: b :: c :: rest =>
      b64Char (a / 4) :: b64Char (a % 4 * 16 + b / 16) ::
        b64Char (b % 16 * 4 + c / 64) :: b64Char (c % 64) :: b64Encode rest
  | [a, b] => [b64Char (a / 4), b64Char (a % 4 * 16 + b / 16), b64Char (b % 16 * 4), '=']
  | [a] => [b64Char (a / 4), b64Char (a % 4 * 16), '=', '=']
  | [] => []

/-- Base64 decoding of a character list, modelling `atob` followed by the
`charCodeAt` loop of `decode`; `none` models the exception `atob` throws
on input it rejects. -/
def b64Decode : List Char → Option (List ℕ)
  | c1 :: c2 :: c3 :: c4 :: rest =>
      (b64Index c1).bind fun s1 =>
      (b64Index c2).bind fun s2 =>
      if c3 = '=' then
        if c4 = '=' ∧ rest = [] then some [s1 * 4 + s2 / 16] else none
      else
        (b64Index c3).bind fun s3 =>
        if c4 = '=' then
          if rest = [] then some [s1 * 4 + s2 / 16, s2 % 16 * 16 + s3 / 4] else none
        else
          (b64Index c4).bind fun s4 =>
          (b64Decode rest).bind fun tail =>
          some ((s1 * 4 + s2 / 16) :: (s2 % 16 * 16 + s3 / 4) :: (s3 % 4 * 64 + s4) :: tail)
  | [] => some []
  | _ => none

/-- Source function `encode(bytes: Uint8Array): string`. -/
def encode (bytes : List ℕ) : String := String.mk (b64Encode bytes)

/-- Source function `decode(base64: string): Uint8Array`; `none` models a
thrown exception. -/
def decode (base64 : String) : Option (List ℕ) := b64Decode base64.toList

/-! ## `createBlob` (`src/constants.ts`, lines 293-303) -/

/-- `EncodedMediaBlob` from `src/types.ts`. -/
structure EncodedMediaBlob where
  data : String
  mimeType : String
deriving DecidableEq

/-- The `Int16Array` built by the loop `int16[i] = data[i] * 32768` in
`createBlob`. -/
def createBlobInts (data : List ℚ) : List ℤ :=
  data.map fun s => jsStoreInt16 (s * 32768)

/-- Source function `createBlob(data: Float32Array): EncodedMediaBlob`. -/
def createBlob (data : List ℚ) : EncodedMediaBlob :=
  { data := encode ((createBlobInts data).flatMap int16ToBytes)
    mimeType := "audio/pcm;rate=" ++ toString INPUT_AUDIO_SAMPLE_RATE }

/-! ## `decodeAudioData` (`src/constants.ts`, lines 273-290) -/

/-- The `AudioBuffer` produced by `ctx.createBuffer` and filled by
`decodeAudioData`; the `ctx` argument itself carries no data and is
dropped. -/
structure AudioBufferModel where
  numChannels : ℕ
  frameCount : ℕ
  sampleRate : ℕ
  channels : List (List ℚ)
deriving DecidableEq

/-- `AudioBuffer.duration` is frame count over sample rate. -/
def AudioBufferModel.duration (b : AudioBufferModel) : ℚ :=
  (b.frameCount : ℚ) / (b.sampleRate : ℚ)

/-- Source function `decodeAudioData(data, ctx, sampleRate, numChannels)`.
The first `none` is the `RangeError` thrown by `new Int16Array(data.buffer)`
when the byte length is odd; the second is the `NotSupportedError` thrown
by `ctx.createBuffer` when the frame count `dataInt16.length / numChannels`
converts (WebIDL `unsigned long`, truncation toward zero) to zero.  A
fractional frame count that truncates to a positive integer is accepted by
`createBuffer`, so the copy loop then silently reads only a prefix. -/
def decodeAudioData (data : List ℕ) (sampleRate numChannels : ℕ) :
    Option AudioBufferModel :=
  if data.length % 2 ≠ 0 then none
  else
    let dataInt16 := bytesToInt16 data
    let frameCount := dataInt16.length / numChannels
    if frameCount = 0 then none
    else some
      { numChannels := numChannels
        frameCount := frameCount
        sampleRate := sampleRate
        channels := (List.range numChannels).map fun ch =>
          (List.range frameCount).map fun i =>
            ((dataInt16.getD (i * numChannels + ch) 0 : ℤ) : ℚ) / 32768 }

/-- The round trip the spec's codec property talks about: decode, with one
channel, the bytes that `createBlob` produced (its base64 payload run back
through `decode`). -/
def roundTripDecode (samples : List ℚ) (rate : ℕ) : Option AudioBufferModel :=
  (decode (createBlob samples).data).bind fun bytes => decodeAudioData bytes rate 1

/-! ## `convertPcmToWavBlob` (`src/constants.ts`, lines 316-358) -/

/-- Little-endian bytes written by `DataView.setUint16(offset, n, true)`. -/
def u16le (n : ℕ) : List ℕ := [n % 256, n / 256 % 256]

/-- Little-endian bytes written by `DataView.setUint32(offset, n, true)`. -/
def u32le (n : ℕ) : List ℕ := [n % 256, n / 256 % 256, n / 65536 % 256, n / 16777216 % 256]

/-- Helper `writeString` of `src/constants.ts`: one byte per character
(`charCodeAt`, ASCII here). -/
def strBytes (s : String) : List ℕ := s.toList.map Char.toNat

/-- Source function `convertPcmToWavBlob(pcmBytes, sampleRate, numChannels)`;
the result is the byte content of the returned `Blob`.  The sequential
`DataView` writes at increasing offsets are expressed as concatenation in
the same order, each piece as wide as the offset advance. -/
def convertPcmToWavBlob (pcmBytes : List ℕ) (sampleRate numChannels : ℕ) : List ℕ :=
  let bitsPerSample := 16
  let headerLength := 44
  let dataLength := pcmBytes.length
  let fileLength := dataLength + headerLength - 8
  strBytes "RIFF" ++ u32le fileLength ++ strBytes "WAVE" ++
  strBytes "fmt " ++ u32le 16 ++ u16le 1 ++ u16le numChannels ++
  u32le sampleRate ++ u32le (sampleRate * numChannels * (bitsPerSample / 8)) ++
  u16le (numChannels * (bitsPerSample / 8)) ++ u16le bitsPerSample ++
  strBytes "data" ++ u32le dataLength ++ pcmBytes.map (· % 256)

/-! ## Live chat message handling (`src/components/LiveChat.tsx`) -/

/-- `ChatRole` from `src/types.ts`. -/
inductive ChatRole where
  | user
  | model
deriving DecidableEq

/-- `ChatMessage` from `src/types.ts` (the optional `isStreaming` field is
never set by `LiveChat` and is omitted); the timestamp `new Date()` is the
wall-clock time passed to the handler. -/
structure ChatMessage where
  role : ChatRole
  content : String
  timestamp : ℚ
deriving DecidableEq

/-- The fields of a `LiveServerMessage` that `handleLiveMessage` inspects:
`serverContent.modelTurn.parts[0].inlineData.data` (base64 audio),
`serverContent.outputTranscription.text`,
`serverContent.inputTranscription.text`, `serverContent.turnComplete` and
`serverContent.interrupted`. -/
structure LiveServerMessage where
  audioData : Option String
  outputTranscription : Option String
  inputTranscription : Option String
  turnComplete : Bool
  interrupted : Bool
deriving DecidableEq

/-- The mutable cells of `LiveChat` that `handleLiveMessage` reads and
writes: `nextStartTimeRef`, `playbackSourcesRef` (scheduled
`AudioBufferSourceNode`s, tracked by identifier), and the two
transcription state strings, plus the `chatMessages` log. -/
structure LiveState where
  nextStartTime : ℚ
  playbackSources : List ℕ
  currentInputTranscription : String
  currentOutputTranscription : String
  chatMessages : List ChatMessage
deriving DecidableEq

/-- JavaScript `String.prototype.trim` (the source only ever holds ASCII
whitespace in the trimmed positions): drop whitespace from both ends. -/
def jsTrim (s : String) : String :=
  String.mk (((s.toList.dropWhile Char.isWhitespace).reverse.dropWhile
    Char.isWhitespace).reverse)

/-- The playback-scheduler step of `handleLiveMessage` (lines 51-75),
modelled for an active session (the guard also requires
`outputAudioContextRef.current` to be non-null, which holds whenever this
handler can run): on a message carrying a non-empty base64 audio payload
(the JS truthiness test skips an empty string), first clamp
`nextStartTime` up to the output clock's current time, then (inside the
`try`) decode; on success schedule a new source at `nextStartTime`,
advance it by the buffer's duration and add the source to the set; a
decode failure is caught and only logged. -/
def handleAudio (st : LiveState) (msg : LiveServerMessage) (now : ℚ) (srcId : ℕ) :
    LiveState :=
  match msg.audioData with
  | none => st
  | some b64 =>
    if b64 = "" then st
    else
      let nst1 := max st.nextStartTime now
      match (decode b64).bind
          (decodeAudioData · OUTPUT_AUDIO_SAMPLE_RATE AUDIO_NUM_CHANNELS) with
      | none => { st with nextStartTime := nst1 }
      | some buf =>
        { st with
            nextStartTime := nst1 + buf.duration
            playbackSources := st.playbackSources ++ [srcId] }

/-- The transcription step of `handleLiveMessage` (lines 78-82): an
`if / else if` appending the delta text to the output buffer, or else to
the input buffer. -/
def handleTranscription (st : LiveState) (msg : LiveServerMessage) : LiveState :=
  match msg.outputTranscription with
  | some t => { st with currentOutputTranscription := st.currentOutputTranscription ++ t }
  | none =>
    match msg.inputTranscription with
    | some t => { st with currentInputTranscription := st.currentInputTranscription ++ t }
    | none => st

/-- The turn-completion step of `handleLiveMessage` (lines 85-101): when
`turnComplete` is set, append a USER message if the input buffer trims to
something non-empty, then a MODEL message if the output buffer does, then
clear both buffers. -/
def handleTurnComplete (st : LiveState) (msg : LiveServerMessage) (tstamp : ℚ) :
    LiveState :=
  if msg.turnComplete then
    let st1 :=
      if jsTrim st.currentInputTranscription ≠ "" then
        { st with chatMessages :=
            st.chatMessages ++ [⟨ChatRole.user, st.currentInputTranscription, tstamp⟩] }
      else st
    let st2 :=
      if jsTrim st1.currentOutputTranscription ≠ "" then
        { st1 with chatMessages :=
            st1.chatMessages ++ [⟨ChatRole.model, st1.currentOutputTranscription, tstamp⟩] }
      else st1
    { st2 with currentInputTranscription := "", currentOutputTranscription := "" }
  else st

/-- The interruption step of `handleLiveMessage` (lines 104-112): when
`interrupted` is set, stop and remove every scheduled source, reset
`nextStartTime` to zero and clear both transcription buffers. -/
def handleInterrupted (st : LiveState) (msg : LiveServerMessage) : LiveState :=
  if msg.interrupted then
    { st with
        playbackSources := []
        nextStartTime := 0
        currentInputTranscription := ""
        currentOutputTranscription := "" }
  else st

/-- Source handler `handleLiveMessage` of `LiveChat.tsx`: the four steps
in source order.  `now` is `outputAudioContext.currentTime` when the
message is handled, `srcId` identifies the freshly created source node,
`tstamp` the wall-clock time used for message timestamps. -/
def handleLiveMessage (st : LiveState) (msg : LiveServerMessage) (now : ℚ)
    (srcId : ℕ) (tstamp : ℚ) : LiveState :=
  handleInterrupted (handleTurnComplete (handleTranscription
    (handleAudio st msg now srcId) msg) msg tstamp) msg

/-- The scheduling computation of the playback path, extracted from lines
54 and 69-70 of `LiveChat.tsx`: the returned pair is (scheduled start,
new `nextStartTime`). -/
def enqueue (nextStartTime now dur : ℚ) : ℚ × ℚ :=
  (max nextStartTime now, max nextStartTime now + dur)

/-- A message carrying only an audio delta. -/
def audioDeltaMsg (b64 : String) : LiveServerMessage :=
  ⟨some b64, none, none, false, false⟩

/-- A message carrying only a turn-complete signal. -/
def turnCompleteMsg : LiveServerMessage := ⟨none, none, none, true, false⟩

/-- A message carrying only an interruption signal. -/
def interruptedMsg : LiveServerMessage := ⟨none, none, none, false, true⟩

/-! ## Session teardown (`stopRecording`, `LiveChat.tsx` lines 195-228) -/

/-- The resource-holding refs and transient state of `LiveChat` that
`stopRecording` touches.  A `Bool` field records whether the corresponding
ref currently holds a handle (`true`) or is `null` (`false`). -/
structure RecorderState where
  mediaStream : Bool
  mediaStreamSource : Bool
  scriptProcessor : Bool
  audioContext : Bool
  outputAudioContext : Bool
  liveSession : Bool
  playbackSources : List ℕ
  nextStartTime : ℚ
  isRecording : Bool
  isLoading : Bool
deriving DecidableEq

/-- The initial component state: every ref starts `null`
(`useRef(null)`), `nextStartTimeRef` starts at 0, the source set empty,
and both flags false. -/
def initialRecorderState : RecorderState :=
  ⟨false, false, false, false, false, false, [], 0, false, false⟩

/-- Source function `stopRecording` of `LiveChat.tsx`: each guarded block
stops/disconnects/closes its handle and nulls the ref; the playback
sources are stopped, the set cleared and the clock reset only inside the
output-audio-context block; finally both flags are lowered.  Every
fallible close is wrapped in a `.catch`, so the function never throws. -/
def stopRecording (s : RecorderState) : RecorderState :=
  let s := if s.mediaStream then { s with mediaStream := false } else s
  let s := if s.mediaStreamSource then { s with mediaStreamSource := false } else s
  let s := if s.scriptProcessor then { s with scriptProcessor := false } else s
  let s := if s.audioContext then { s with audioContext := false } else s
  let s :=
    if s.outputAudioContext then
      { s with playbackSources := [], nextStartTime := 0, outputAudioContext := false }
    else s
  let s := if s.liveSession then { s with liveSession := false } else s
  { s with isRecording := false, isLoading := false }

/-! ## Structured analysis (`analyzeVideoTranscriptForInfo`,
`src/constants.ts` lines 120-171) -/

/-- `Timeframe` from `src/types.ts`. -/
structure Timeframe where
  startTime : String
  endTime : String
  description : String
deriving DecidableEq

/-- `AnalysisOutput` from `src/types.ts`. -/
structure AnalysisOutput where
  analysisText : String
  timeframes : List Timeframe
deriving DecidableEq

/-- The response handling of `analyzeVideoTranscriptForInfo`: the external
runtime call `JSON.parse(response.text.trim())` followed by the unchecked
cast to `AnalysisOutput` is abstracted as the `parseJson` parameter
(`none` models a thrown parse error); the `catch` block builds the
fallback object with the template literal
`Failed to parse structured analysis. Raw response: ${response.text}`. -/
def analyzeVideoTranscriptForInfo (parseJson : String → Option AnalysisOutput)
    (responseText : String) : AnalysisOutput :=
  match parseJson (jsTrim responseText) with
  | some parsed => parsed
  | none =>
    { analysisText := "Failed to parse structured analysis. Raw response: " ++ responseText
      timeframes := [] }

end SubtitleStory

namespace SubtitleStory

/-! ## Helper lemmas -/

theorem ratTrunc_eq_floor_ceil (q : ℚ) : ratTrunc q = if 0 ≤ q then ⌊q⌋ else ⌈q⌉ := by
  by_cases h : 0 ≤ q
  · rw [if_pos h, Rat.floor_def, ratTrunc,
      Int.tdiv_eq_ediv (Rat.num_nonneg.2 h) (by positivity)]
  · rw [if_neg h]
    have h1 : (0 : ℚ) ≤ -q := by linarith
    have h2 : (0 : ℤ) ≤ -q.num := by simpa using Rat.num_nonneg.2 h1
    have e3 : ⌊-q⌋ = -q.num / (q.den : ℤ) := by
      rw [Rat.floor_def, Rat.neg_num, Rat.neg_den]
    have e4 : (-q.num).tdiv q.den = -q.num / (q.den : ℤ) :=
      Int.tdiv_eq_ediv h2 (by positivity)
    have e5 : (-q.num).tdiv q.den = -(q.num.tdiv q.den) := Int.neg_tdiv _ _
    have e6 : ⌈q⌉ = -⌊-q⌋ := by rw [Int.floor_neg]; ring
    rw [e6, e3, ← e4, e5, ratTrunc]
    ring

theorem ratTrunc_err (q : ℚ) : |q - (ratTrunc q : ℚ)| ≤ 1 := by
  rw [ratTrunc_eq_floor_ceil]
  by_cases h : 0 ≤ q
  · rw [if_pos h, abs_le]
    have h1 := Int.floor_le q
    have h2 := Int.lt_floor_add_one q
    constructor <;> linarith
  · rw [if_neg h, abs_le]
    have h1 := Int.le_ceil q
    have h2 := Int.ceil_lt_add_one q
    constructor <;> linarith

theorem ratTrunc_range (y : ℚ) (h1 : -32768 ≤ y) (h2 : y < 32768) :
    -32768 ≤ ratTrunc y ∧ ratTrunc y < 32768 := by
  rw [ratTrunc_eq_floor_ceil]
  by_cases h : 0 ≤ y
  · rw [if_pos h]
    refine ⟨le_trans (by norm_num) (Int.floor_nonneg.2 h), ?_⟩
    rw [Int.floor_lt]
    push_cast
    exact h2
  · rw [if_neg h]
    constructor
    · have : ((-32768 : ℤ) : ℚ) ≤ y := by push_cast; linarith
      calc (-32768 : ℤ) = ⌈((-32768 : ℤ) : ℚ)⌉ := by rw [Int.ceil_intCast]
        _ ≤ ⌈y⌉ := Int.ceil_le_ceil this
    · have hy : y ≤ ((0 : ℤ) : ℚ) := by push_cast; linarith [le_of_not_le h]
      have : ⌈y⌉ ≤ 0 := Int.ceil_le.2 hy
      omega

theorem toInt16_range (n : ℤ) : -32768 ≤ toInt16 n ∧ toInt16 n < 32768 := by
  unfold toInt16
  split <;> omega

theorem toInt16_eq_self (v : ℤ) (h1 : -32768 ≤ v) (h2 : v < 32768) : toInt16 v = v := by
  unfold toInt16
  split <;> omega

theorem toInt16_emod (n : ℤ) : toInt16 n % 65536 = n % 65536 := by
  unfold toInt16
  split <;> omega

theorem b64Index_b64Char : ∀ n < 64, b64Index (b64Char n) = some n := by decide

theorem b64Char_ne_eqsign : ∀ n < 64, b64Char n ≠ '=' := by decide

theorem b64Decode_b64Encode :
    ∀ bs : List ℕ, (∀ b ∈ bs, b < 256) → b64Decode (b64Encode bs) = some bs
  | [], _ => rfl
  | [a], h => by
    have ha : a < 256 := h a (by simp)
    have e1 := b64Index_b64Char (a / 4) (by omega)
    have e2 := b64Index_b64Char (a % 4 * 16) (by omega)
    simp only [b64Encode, b64Decode, e1, e2, Option.bind, if_true, if_false,
      and_self, eq_self_iff_true, and_true, true_and, Option.some.injEq,
      List.cons.injEq]
    omega
  | [a, b], h => by
    have ha : a < 256 := h a (by simp)
    have hb : b < 256 := h b (by simp)
    have e1 := b64Index_b64Char (a / 4) (by omega)
    have e2 := b64Index_b64Char (a % 4 * 16 + b / 16) (by omega)
    have e3 := b64Index_b64Char (b % 16 * 4) (by omega)
    have ne3 := b64Char_ne_eqsign (b % 16 * 4) (by omega)
    simp only [b64Encode, b64Decode, e1, e2, e3, ne3, Option.bind, if_true,
      if_false, and_self, eq_self_iff_true, and_true, true_and,
      Option.some.injEq, List.cons.injEq]
    omega
  | a :: b :: c :: d :: rest, h => by
    have ha : a < 256 := h a (by simp)
    have hb : b < 256 := h b (by simp)
    have hc : c < 256 := h c (by simp)
    have e1 := b64Index_b64Char (a / 4) (by omega)
    have e2 := b64Index_b64Char (a % 4 * 16 + b / 16) (by omega)
    have e3 := b64Index_b64Char (b % 16 * 4 + c / 64) (by omega)
    have e4 := b64Index_b64Char (c % 64) (by omega)
    have ne3 := b64Char_ne_eqsign (b % 16 * 4 + c / 64) (by omega)
    have ne4 := b64Char_ne_eqsign (c % 64) (by omega)
    have hrest : ∀ x ∈ d :: rest, x < 256 := fun x hx => h x (by simp [hx])
    have hrec := b64Decode_b64Encode (d :: rest) hrest
    simp only [b64Encode, b64Decode, e1, e2, e3, e4, ne3, ne4, hrec,
      Option.bind, if_true, if_false, and_self, eq_self_iff_true, and_true,
      true_and, Option.some.injEq, List.cons.injEq]
    omega
  | [a, b, c], h => by
    have ha : a < 256 := h a (by simp)
    have hb : b < 256 := h b (by simp)
    have hc : c < 256 := h c (by simp)
    have e1 := b64Index_b64Char (a / 4) (by omega)
    have e2 := b64Index_b64Char (a % 4 * 16 + b / 16) (by omega)
    have e3 := b64Index_b64Char (b % 16 * 4 + c / 64) (by omega)
    have e4 := b64Index_b64Char (c % 64) (by omega)
    have ne3 := b64Char_ne_eqsign (b % 16 * 4 + c / 64) (by omega)
    have ne4 := b64Char_ne_eqsign (c % 64) (by omega)
    simp only [b64Encode, b64Decode, e1, e2, e3, e4, ne3, ne4, Option.bind,
      if_true, if_false, and_self, eq_self_iff_true, and_true, true_and,
      Option.some.injEq, List.cons.injEq]
    omega

theorem int16ToBytes_lt (v : ℤ) : ∀ b ∈ int16ToBytes v, b < 256 := by
  intro b hb
  simp only [int16ToBytes, List.mem_cons, List.not_mem_nil, or_false] at hb
  rcases hb with h | h <;> omega

theorem int16ToBytes_length (v : ℤ) : (int16ToBytes v).length = 2 := rfl

theorem flatMap_int16ToBytes_length :
    ∀ vs : List ℤ, (vs.flatMap int16ToBytes).length = 2 * vs.length
  | [] => rfl
  | v :: t => by
    simp only [List.flatMap_cons, List.length_append, int16ToBytes_length,
      flatMap_int16ToBytes_length t, List.length_cons]
    ring

theorem bytesToInt16_flatMap :
    ∀ vs : List ℤ, (∀ v ∈ vs, -32768 ≤ v ∧ v < 32768) →
      bytesToInt16 (vs.flatMap int16ToBytes) = vs
  | [], _ => rfl
  | v :: t, h => by
    have hv := h v (by simp)
    have ht : ∀ x ∈ t, -32768 ≤ x ∧ x < 32768 := fun x hx => h x (by simp [hx])
    have hrec := bytesToInt16_flatMap t ht
    simp only [List.flatMap] at hrec
    simp only [List.flatMap_cons, int16ToBytes, List.cons_append, List.nil_append,
      List.append_eq, bytesToInt16, List.flatMap, hrec]
    simp only [List.cons.injEq, and_true]
    have hnn : 0 ≤ v % 65536 := Int.emod_nonneg v (by norm_num)
    have hu : ((v % 65536).toNat : ℤ) = v % 65536 := Int.toNat_of_nonneg hnn
    have hcomb : (((v % 65536).toNat % 256 : ℕ) : ℤ) +
        256 * (((v % 65536).toNat / 256 : ℕ) : ℤ) = ((v % 65536).toNat : ℤ) := by
      push_cast
      omega
    rw [hcomb, hu]
    unfold toInt16
    split <;> omega

theorem range_map_getD {α β : Type} (l : List α) (d : α) (f : α → β) :
    (List.range l.length).map (fun i => f (l.getD i d)) = l.map f := by
  induction l with
  | nil => rfl
  | cons a t ih =>
    rw [List.length_cons, List.range_succ_eq_map, List.map_cons, List.map_map]
    have hfun : ((fun i => f ((a :: t).getD i d)) ∘ Nat.succ) =
        fun i => f (t.getD i d) := by
      funext i
      simp [Function.comp, List.getD_cons_succ]
    rw [hfun, ih, List.map_cons, List.getD_cons_zero]

theorem decodeAudioData_flatMap (vs : List ℤ) (rate : ℕ)
    (hr : ∀ v ∈ vs, -32768 ≤ v ∧ v < 32768) (hne : vs ≠ []) :
    decodeAudioData (vs.flatMap int16ToBytes) rate 1 =
      some ⟨1, vs.length, rate, [vs.map fun v => ((v : ℤ) : ℚ) / 32768]⟩ := by
  have hlen : (vs.flatMap int16ToBytes).length % 2 = 0 := by
    rw [flatMap_int16ToBytes_length]
    omega
  have hbts := bytesToInt16_flatMap vs hr
  have hlvs : vs.length ≠ 0 := fun h => hne (List.length_eq_zero.1 h)
  simp only [decodeAudioData]
  rw [if_neg (by omega)]
  simp only [hbts, Nat.div_one]
  rw [if_neg hlvs]
  refine congrArg some ?_
  refine congrArg (AudioBufferModel.mk 1 vs.length rate) ?_
  rw [show List.range 1 = [0] from rfl, List.map_cons, List.map_nil]
  refine congrArg (fun l => [l]) ?_
  simp only [Nat.mul_one, Nat.add_zero]
  exact range_map_getD vs 0 (fun v => ((v : ℤ) : ℚ) / 32768)

theorem createBlobInts_range (samples : List ℚ) :
    ∀ v ∈ createBlobInts samples, -32768 ≤ v ∧ v < 32768 := by
  intro v hv
  simp only [createBlobInts, List.mem_map] at hv
  obtain ⟨s, _, rfl⟩ := hv
  exact toInt16_range _

theorem roundTripDecode_eq (samples : List ℚ) (rate : ℕ) (h : samples ≠ []) :
    roundTripDecode samples rate =
      some ⟨1, samples.length, rate,
        [(createBlobInts samples).map fun v => ((v : ℤ) : ℚ) / 32768]⟩ := by
  have hr := createBlobInts_range samples
  have hbytes : ∀ b ∈ (createBlobInts samples).flatMap int16ToBytes, b < 256 := by
    intro b hb
    simp only [List.mem_flatMap] at hb
    obtain ⟨v, _, hbv⟩ := hb
    exact int16ToBytes_lt v b hbv
  have hne : createBlobInts samples ≠ [] := by
    simpa [createBlobInts] using h
  have hdecode : decode (createBlob samples).data =
      some ((createBlobInts samples).flatMap int16ToBytes) :=
    b64Decode_b64Encode _ hbytes
  unfold roundTripDecode
  rw [hdecode, Option.some_bind, decodeAudioData_flatMap _ rate hr hne]
  rw [show (createBlobInts samples).length = samples.length from List.length_map _ _]

theorem jsStoreInt16_sample (x : ℚ) (h1 : -1 ≤ x) (h2 : x < 1) :
    jsStoreInt16 (x * 32768) = ratTrunc (x * 32768) ∧
    |x - ((ratTrunc (x * 32768) : ℤ) : ℚ) / 32768| ≤ 1 / 32768 := by
  have hy1 : -32768 ≤ x * 32768 := by linarith
  have hy2 : x * 32768 < 32768 := by linarith
  have hr := ratTrunc_range (x * 32768) hy1 hy2
  refine ⟨toInt16_eq_self _ hr.1 hr.2, ?_⟩
  have herr := ratTrunc_err (x * 32768)
  rw [abs_le] at herr ⊢
  constructor <;> linarith [herr.1, herr.2]

theorem handleAudio_none (st : LiveState) (msg : LiveServerMessage) (now : ℚ)
    (srcId : ℕ) (h : msg.audioData = none) : handleAudio st msg now srcId = st := by
  unfold handleAudio
  rw [h]

theorem handleTranscription_none (st : LiveState) (msg : LiveServerMessage)
    (h1 : msg.outputTranscription = none) (h2 : msg.inputTranscription = none) :
    handleTranscription st msg = st := by
  unfold handleTranscription
  rw [h1, h2]

theorem handleTurnComplete_false (st : LiveState) (msg : LiveServerMessage)
    (tstamp : ℚ) (h : msg.turnComplete = false) :
    handleTurnComplete st msg tstamp = st := by
  unfold handleTurnComplete
  rw [h]
  simp

theorem handleInterrupted_false (st : LiveState) (msg : LiveServerMessage)
    (h : msg.interrupted = false) : handleInterrupted st msg = st := by
  unfold handleInterrupted
  rw [h]
  simp

theorem handleTurnComplete_true (st : LiveState) (msg : LiveServerMessage)
    (tstamp : ℚ) (h : msg.turnComplete = true) :
    handleTurnComplete st msg tstamp =
      { st with
          chatMessages := st.chatMessages
            ++ (if jsTrim st.currentInputTranscription ≠ "" then
                  [⟨ChatRole.user, st.currentInputTranscription, tstamp⟩] else [])
            ++ (if jsTrim st.currentOutputTranscription ≠ "" then
                  [⟨ChatRole.model, st.currentOutputTranscription, tstamp⟩] else [])
          currentInputTranscription := ""
          currentOutputTranscription := "" } := by
  obtain ⟨nst, srcs, inb, outb, msgs⟩ := st
  unfold handleTurnComplete
  rw [h]
  by_cases hin : jsTrim inb ≠ "" <;> by_cases hout : jsTrim outb ≠ "" <;>
    simp [hin, hout]

/-! ## Theorems for the claims -/

/-- Claim C1 (amended): for every nonempty sequence of float samples each
in `[-1, 1)`, decoding the frame encoded by `createBlob` (its base64
payload run through `decode`, then `decodeAudioData` with 1 channel)
succeeds and yields a single channel of the same length in which every
decoded sample differs from the corresponding original sample by at most
`1/32768`.  The original claim's closed interval `[-1, 1]` fails: the
sample `1.0` quantizes to `32768`, which wraps to `-32768` in the
`Int16Array` store (see the counterexample), and the empty sequence makes
`createBuffer` throw on a zero frame count. -/
theorem claim1_roundtrip_amended (samples : List ℚ) (rate : ℕ)
    (hne : samples ≠ []) (hr : ∀ x ∈ samples, -1 ≤ x ∧ x < 1) :
    ∃ ys : List ℚ,
      roundTripDecode samples rate = some ⟨1, samples.length, rate, [ys]⟩ ∧
      ys.length = samples.length ∧
      List.Forall₂ (fun x y => |x - y| ≤ 1 / 32768) samples ys := by
  refine ⟨(createBlobInts samples).map fun v => ((v : ℤ) : ℚ) / 32768,
    roundTripDecode_eq samples rate hne, by simp [createBlobInts], ?_⟩
  unfold createBlobInts
  rw [List.map_map, List.forall₂_map_right_iff]
  rw [List.forall₂_same]
  intro x hx
  have hx' := hr x hx
  have hs := jsStoreInt16_sample x hx'.1 hx'.2
  simpa [Function.comp, hs.1] using hs.2

/-- Witness for claim C1's amended theorem at the concrete input
`[1/2]`. -/
theorem claim1_roundtrip_witness :
    (([(1 : ℚ)/2] : List ℚ) ≠ [] ∧ ∀ x ∈ [(1 : ℚ)/2], -1 ≤ x ∧ x < 1) ∧
    ∃ ys : List ℚ,
      roundTripDecode [(1 : ℚ)/2] 24000 = some ⟨1, [(1 : ℚ)/2].length, 24000, [ys]⟩ ∧
      ys.length = [(1 : ℚ)/2].length ∧
      List.Forall₂ (fun x y => |x - y| ≤ 1 / 32768) [(1 : ℚ)/2] ys :=
  ⟨⟨by simp, by norm_num⟩,
    claim1_roundtrip_amended [(1 : ℚ)/2] 24000 (by simp) (by norm_num)⟩

/-- Counterexample to claim C1 as stated: the sample `1.0` lies in the
claimed interval `[-1, 1]`, but the round trip decodes it to `-1`, an
error of `2 > 1/32768` (the `Int16Array` store wraps `32768` to
`-32768`). -/
theorem claim1_roundtrip_counterexample :
    roundTripDecode [(1 : ℚ)] 24000 = some ⟨1, 1, 24000, [[-1]]⟩ ∧
    ¬(|(1 : ℚ) - (-1)| ≤ 1 / 32768) := by
  constructor
  · rw [roundTripDecode_eq [(1 : ℚ)] 24000 (by simp)]
    have h1 : createBlobInts [(1 : ℚ)] = [-32768] := by
      simp only [createBlobInts, List.map_cons, List.map_nil]
      have e1 : (1 : ℚ) * 32768 = ((32768 : ℤ) : ℚ) := by norm_num
      show (jsStoreInt16 ((1 : ℚ) * 32768) :: ([] : List ℤ)) = [-32768]
      rw [show jsStoreInt16 ((1 : ℚ) * 32768) = toInt16 (ratTrunc ((1 : ℚ) * 32768)) from rfl,
        e1, ratTrunc_eq_floor_ceil, if_pos (by positivity), Int.floor_intCast]
      rw [show toInt16 32768 = -32768 by decide]
    rw [h1]
    simp only [List.map_cons, List.map_nil, List.length_cons, List.length_nil]
    norm_num
  · intro hcontra
    rw [abs_le] at hcontra
    linarith [hcontra.2]

/-- Claim C8: `convertPcmToWavBlob` on a 2-byte PCM payload at 24000 Hz,
1 channel, 16 bits per sample yields exactly 46 bytes; bytes 0-3 spell
`RIFF`, bytes 36-39 spell `data`, the declared data length at bytes 40-43
(little-endian) is 2, the RIFF size field at bytes 4-7 is the total length
minus 8, the byte-rate field at bytes 28-31 is `sampleRate*numChannels*2`,
and the block-align field at bytes 32-33 is `numChannels*2`. -/
theorem convertPcmToWavBlob_header_exact (b0 b1 : ℕ) :
    (convertPcmToWavBlob [b0, b1] 24000 1).length = 46 ∧
    (convertPcmToWavBlob [b0, b1] 24000 1).take 4 = strBytes "RIFF" ∧
    ((convertPcmToWavBlob [b0, b1] 24000 1).drop 36).take 4 = strBytes "data" ∧
    ((convertPcmToWavBlob [b0, b1] 24000 1).drop 40).take 4 = u32le 2 ∧
    ((convertPcmToWavBlob [b0, b1] 24000 1).drop 4).take 4 = u32le (46 - 8) ∧
    ((convertPcmToWavBlob [b0, b1] 24000 1).drop 28).take 4 = u32le (24000 * 1 * 2) ∧
    ((convertPcmToWavBlob [b0, b1] 24000 1).drop 32).take 2 = u16le (1 * 2) := by
  refine ⟨?_, ?_, ?_, ?_, ?_, ?_, ?_⟩ <;>
    simp [convertPcmToWavBlob, strBytes, u32le, u16le]

/-- Claim C2: gapless scheduling.  Each enqueue schedules at
`max(nextStartTime, now)` and advances `nextStartTime` by exactly the
segment's duration (third conjunct, tied back to the embedded
`handleAudio` in the fourth); consequently, for segments of durations
`d1, d2, d3` each arriving before its predecessor finishes
(`h2`, `h3`), the second segment starts exactly at the first's start plus
`d1` and the third at the first's start plus `d1 + d2`, regardless of the
arrival times `now2`, `now3`. -/
theorem claim2_gapless_scheduling (nst0 now1 now2 now3 d1 d2 d3 : ℚ)
    (h2 : now2 < (enqueue nst0 now1 d1).1 + d1)
    (h3 : now3 < (enqueue (enqueue nst0 now1 d1).2 now2 d2).1 + d2) :
    (enqueue (enqueue nst0 now1 d1).2 now2 d2).1 = (enqueue nst0 now1 d1).1 + d1 ∧
    (enqueue (enqueue (enqueue nst0 now1 d1).2 now2 d2).2 now3 d3).1 =
      (enqueue nst0 now1 d1).1 + d1 + d2 ∧
    (∀ nst now dur : ℚ, (enqueue nst now dur).1 = max nst now ∧
      (enqueue nst now dur).2 = (enqueue nst now dur).1 + dur) ∧
    (∀ (st : LiveState) (b64 : String) (buf : AudioBufferModel) (now : ℚ) (srcId : ℕ),
      b64 ≠ "" →
      (decode b64).bind
        (decodeAudioData · OUTPUT_AUDIO_SAMPLE_RATE AUDIO_NUM_CHANNELS) = some buf →
      (handleAudio st (audioDeltaMsg b64) now srcId).nextStartTime =
        (enqueue st.nextStartTime now buf.duration).2) := by
  simp only [enqueue] at h2 h3 ⊢
  have e1 : max (max nst0 now1 + d1) now2 = max nst0 now1 + d1 := max_eq_left h2.le
  rw [e1] at h3 ⊢
  have e2 : max (max nst0 now1 + d1 + d2) now3 = max nst0 now1 + d1 + d2 :=
    max_eq_left h3.le
  refine ⟨rfl, e2, fun nst now dur => by simp [enqueue], ?_⟩
  intro st b64 buf now srcId hb hdec
  unfold handleAudio audioDeltaMsg
  simp only
  rw [if_neg hb, hdec]

/-- Witness for claim C2's theorem: durations 1, 1, 1 with the first
segment enqueued at clock 0, the second arriving at 1/2 and the third at
3/2. -/
theorem claim2_gapless_scheduling_witness :
    ((1 : ℚ)/2 < (enqueue 0 0 1).1 + 1 ∧
      (3 : ℚ)/2 < (enqueue (enqueue 0 0 1).2 (1/2) 1).1 + 1) ∧
    (enqueue (enqueue 0 0 1).2 (1/2) 1).1 = (enqueue 0 0 1).1 + 1 ∧
    (enqueue (enqueue (enqueue 0 0 1).2 (1/2) 1).2 (3/2) 1).1 =
      (enqueue 0 0 1).1 + 1 + 1 := by
  have h2 : (1 : ℚ)/2 < (enqueue 0 0 1).1 + 1 := by norm_num [enqueue]
  have h3 : (3 : ℚ)/2 < (enqueue (enqueue 0 0 1).2 (1/2) 1).1 + 1 := by
    norm_num [enqueue]
  have h := claim2_gapless_scheduling 0 0 (1/2) (3/2) 1 1 1 h2 h3
  exact ⟨⟨h2, h3⟩, h.1, h.2.1⟩

/-- Claim C3: on an `interrupted` server event every scheduled playback
source is removed (the set becomes empty), `nextStartTime` is reset to 0,
both transcription buffers are cleared, no ChatMessage is created from
their partial contents, and the next enqueue (at any output-clock time
`now2 ≥ 0`) schedules at `now2` itself rather than at the pre-interruption
`nextStartTime`. -/
theorem claim3_interrupted_resets (st : LiveState) (now tstamp now2 d : ℚ)
    (srcId : ℕ) (h : 0 ≤ now2) :
    (handleLiveMessage st interruptedMsg now srcId tstamp).playbackSources = [] ∧
    (handleLiveMessage st interruptedMsg now srcId tstamp).nextStartTime = 0 ∧
    (handleLiveMessage st interruptedMsg now srcId tstamp).currentInputTranscription = "" ∧
    (handleLiveMessage st interruptedMsg now srcId tstamp).currentOutputTranscription = "" ∧
    (handleLiveMessage st interruptedMsg now srcId tstamp).chatMessages = st.chatMessages ∧
    (enqueue (handleLiveMessage st interruptedMsg now srcId tstamp).nextStartTime
      now2 d).1 = now2 := by
  have hs : handleLiveMessage st interruptedMsg now srcId tstamp =
      { st with
          playbackSources := []
          nextStartTime := 0
          currentInputTranscription := ""
          currentOutputTranscription := "" } := by
    unfold handleLiveMessage
    rw [handleAudio_none _ _ _ _ rfl, handleTranscription_none _ _ rfl rfl,
      handleTurnComplete_false _ _ _ rfl]
    unfold handleInterrupted interruptedMsg
    simp
  rw [hs]
  refine ⟨rfl, rfl, rfl, rfl, rfl, ?_⟩
  simp only [enqueue]
  exact max_eq_right h

/-- Witness for claim C3's theorem at a concrete pre-interruption state
with a scheduled source, a nonzero clock and partial transcripts. -/
theorem claim3_interrupted_resets_witness :
    (0 : ℚ) ≤ 2 ∧
    ((handleLiveMessage ⟨5, [3], "a", "b", []⟩ interruptedMsg 1 0 2).playbackSources = [] ∧
     (handleLiveMessage ⟨5, [3], "a", "b", []⟩ interruptedMsg 1 0 2).nextStartTime = 0 ∧
     (handleLiveMessage ⟨5, [3], "a", "b", []⟩ interruptedMsg 1 0 2).currentInputTranscription = "" ∧
     (handleLiveMessage ⟨5, [3], "a", "b", []⟩ interruptedMsg 1 0 2).currentOutputTranscription = "" ∧
     (handleLiveMessage ⟨5, [3], "a", "b", []⟩ interruptedMsg 1 0 2).chatMessages =
       (⟨5, [3], "a", "b", []⟩ : LiveState).chatMessages ∧
     (enqueue (handleLiveMessage ⟨5, [3], "a", "b", []⟩ interruptedMsg 1 0 2).nextStartTime
       2 7).1 = 2) :=
  ⟨by norm_num, claim3_interrupted_resets ⟨5, [3], "a", "b", []⟩ 1 2 2 7 0 (by norm_num)⟩

theorem handleLiveMessage_turnCompleteMsg (st : LiveState) (now tstamp : ℚ)
    (srcId : ℕ) :
    handleLiveMessage st turnCompleteMsg now srcId tstamp =
      handleTurnComplete st turnCompleteMsg tstamp := by
  unfold handleLiveMessage
  rw [handleAudio_none _ _ _ _ rfl, handleTranscription_none _ _ rfl rfl,
    handleInterrupted_false _ _ rfl]

/-- Counterexample to claim C4 as stated: with input buffer `" "` (a
single space, hence non-empty) and output buffer `"hi there"`, the
turn-complete handler produces only a MODEL message — no USER message is
created although the input transcription buffer is non-empty. -/
theorem claim4_turn_finalization_counterexample :
    ((⟨0, [], " ", "hi there", []⟩ : LiveState).currentInputTranscription ≠ "") ∧
    (handleLiveMessage ⟨0, [], " ", "hi there", []⟩ turnCompleteMsg 0 0 0).chatMessages.map
      ChatMessage.role = [ChatRole.model] := by
  constructor
  · decide
  · decide

/-- Claim C4 (amended): at turn-complete a USER message is appended
exactly when the input buffer's trimmed content is non-empty, then a MODEL
message exactly when the output buffer's trimmed content is non-empty —
the USER message always precedes the MODEL message — and both buffers are
empty afterwards; in particular with buffers `"hello"` and `"hi there"`
the log is extended by exactly a USER message `"hello"` immediately
followed by a MODEL message `"hi there"`. -/
theorem claim4_turn_finalization_amended (st : LiveState) (now tstamp : ℚ)
    (srcId : ℕ) :
    (handleLiveMessage st turnCompleteMsg now srcId tstamp).chatMessages =
      st.chatMessages
        ++ (if jsTrim st.currentInputTranscription ≠ "" then
              [⟨ChatRole.user, st.currentInputTranscription, tstamp⟩] else [])
        ++ (if jsTrim st.currentOutputTranscription ≠ "" then
              [⟨ChatRole.model, st.currentOutputTranscription, tstamp⟩] else []) ∧
    (handleLiveMessage st turnCompleteMsg now srcId tstamp).currentInputTranscription = "" ∧
    (handleLiveMessage st turnCompleteMsg now srcId tstamp).currentOutputTranscription = "" ∧
    (st.currentInputTranscription = "hello" → st.currentOutputTranscription = "hi there" →
      (handleLiveMessage st turnCompleteMsg now srcId tstamp).chatMessages =
        st.chatMessages ++ [⟨ChatRole.user, "hello", tstamp⟩,
          ⟨ChatRole.model, "hi there", tstamp⟩]) := by
  rw [handleLiveMessage_turnCompleteMsg, handleTurnComplete_true _ _ _ rfl]
  refine ⟨rfl, rfl, rfl, ?_⟩
  intro h1 h2
  rw [h1, h2, if_pos (by decide), if_pos (by decide)]
  simp

/-- Witness for claim C4's amended theorem at input buffer `"hello"` and
output buffer `"hi there"`. -/
theorem claim4_turn_finalization_witness :
    (handleLiveMessage ⟨0, [], "hello", "hi there", []⟩ turnCompleteMsg 0 0 0).chatMessages =
      ([] : List ChatMessage) ++ [⟨ChatRole.user, "hello", 0⟩, ⟨ChatRole.model, "hi there", 0⟩] ∧
    (handleLiveMessage ⟨0, [], "hello", "hi there", []⟩ turnCompleteMsg 0 0 0).currentInputTranscription = "" ∧
    (handleLiveMessage ⟨0, [], "hello", "hi there", []⟩ turnCompleteMsg 0 0 0).currentOutputTranscription = "" :=
  ⟨(claim4_turn_finalization_amended ⟨0, [], "hello", "hi there", []⟩ 0 0 0).2.2.2 rfl rfl,
   (claim4_turn_finalization_amended ⟨0, [], "hello", "hi there", []⟩ 0 0 0).2.1,
   (claim4_turn_finalization_amended ⟨0, [], "hello", "hi there", []⟩ 0 0 0).2.2.1⟩

/-- Claim C10: at turn-complete, an input buffer that is non-empty but
trims to the empty string produces no ChatMessage at all from the input
side — a message is created only when the corresponding buffer's trimmed
content is non-empty — and both buffers are cleared afterwards. -/
theorem claim10_whitespace_guard (st : LiveState) (now tstamp : ℚ) (srcId : ℕ)
    (hne : st.currentInputTranscription ≠ "")
    (hws : jsTrim st.currentInputTranscription = "") :
    (handleLiveMessage st turnCompleteMsg now srcId tstamp).chatMessages =
      st.chatMessages ++ (if jsTrim st.currentOutputTranscription ≠ "" then
        [⟨ChatRole.model, st.currentOutputTranscription, tstamp⟩] else []) ∧
    (handleLiveMessage st turnCompleteMsg now srcId tstamp).currentInputTranscription = "" ∧
    (handleLiveMessage st turnCompleteMsg now srcId tstamp).currentOutputTranscription = "" := by
  rw [handleLiveMessage_turnCompleteMsg, handleTurnComplete_true _ _ _ rfl]
  refine ⟨?_, rfl, rfl⟩
  rw [if_neg (by simp [hws])]
  simp

/-- Witness for claim C10's theorem: input buffer `" "` (non-empty, all
whitespace) and empty output buffer. -/
theorem claim10_whitespace_guard_witness :
    (((⟨0, [], " ", "", []⟩ : LiveState).currentInputTranscription ≠ "") ∧
      jsTrim (⟨0, [], " ", "", []⟩ : LiveState).currentInputTranscription = "") ∧
    (handleLiveMessage ⟨0, [], " ", "", []⟩ turnCompleteMsg 0 0 0).chatMessages =
      (⟨0, [], " ", "", []⟩ : LiveState).chatMessages ++
        (if jsTrim (⟨0, [], " ", "", []⟩ : LiveState).currentOutputTranscription ≠ "" then
          [⟨ChatRole.model, (⟨0, [], " ", "", []⟩ : LiveState).currentOutputTranscription, 0⟩]
        else []) ∧
    (handleLiveMessage ⟨0, [], " ", "", []⟩ turnCompleteMsg 0 0 0).currentInputTranscription = "" ∧
    (handleLiveMessage ⟨0, [], " ", "", []⟩ turnCompleteMsg 0 0 0).currentOutputTranscription = "" :=
  ⟨⟨by decide, by decide⟩,
    claim10_whitespace_guard ⟨0, [], " ", "", []⟩ 0 0 0 (by decide) (by decide)⟩

theorem bytesToInt16_length : ∀ data : List ℕ, (bytesToInt16 data).length = data.length / 2
  | [] => rfl
  | [_] => by simp [bytesToInt16]
  | _ :: _ :: rest => by
    simp only [bytesToInt16, List.length_cons, bytesToInt16_length rest]
    omega

/-- Counterexample to claim C5 as stated: an empty audio chunk has byte
length 0, which is a multiple of `numChannels * 2 = 2`, yet the decoder
fails on it (`ctx.createBuffer` throws on a zero frame count), so the
decoder does not fail *exactly* on the non-multiple lengths. -/
theorem claim5_malformed_counterexample :
    decodeAudioData [] 24000 1 = none ∧
    (List.length ([] : List ℕ)) % (AUDIO_NUM_CHANNELS * 2) = 0 := by
  constructor
  · rfl
  · rfl

/-- Claim C5 (amended): for one channel the chunk decoder fails exactly
when the byte length is odd or zero; when an inbound audio delta carries a
chunk on which the decoder fails, the handler leaves the session state
untouched except for clamping `nextStartTime` up to the current output
clock — the buffers, the source set and the message log are unchanged, so
subsequent events are processed as if the failing event had not happened
and the session is not torn down. -/
theorem claim5_malformed_amended (rate : ℕ) (st : LiveState) (now tstamp : ℚ)
    (srcId : ℕ) (b64 : String) (bytes : List ℕ) (hb : b64 ≠ "")
    (hdec : decode b64 = some bytes)
    (hbad : decodeAudioData bytes OUTPUT_AUDIO_SAMPLE_RATE AUDIO_NUM_CHANNELS = none) :
    (∀ data : List ℕ, decodeAudioData data rate 1 = none ↔
      (data.length % 2 ≠ 0 ∨ data.length = 0)) ∧
    handleLiveMessage st (audioDeltaMsg b64) now srcId tstamp =
      { st with nextStartTime := max st.nextStartTime now } := by
  constructor
  · intro data
    unfold decodeAudioData
    by_cases he : data.length % 2 ≠ 0
    · rw [if_pos he]
      simp [he]
    · rw [if_neg he]
      simp only [bytesToInt16_length, Nat.div_one]
      by_cases hz : data.length / 2 = 0
      · rw [if_pos hz]
        simp only [ne_eq, he, false_or, true_iff]
        omega
      · rw [if_neg hz]
        simp only [ne_eq, he, false_or]
        constructor
        · intro hcontra
          exact absurd hcontra (by simp)
        · intro h0
          exact absurd h0 (by omega)
  · have ha : handleAudio st (audioDeltaMsg b64) now srcId =
        { st with nextStartTime := max st.nextStartTime now } := by
      simp only [handleAudio, audioDeltaMsg]
      rw [if_neg hb, hdec, Option.some_bind, hbad]
    unfold handleLiveMessage
    rw [ha, handleTranscription_none _ _ rfl rfl, handleTurnComplete_false _ _ _ rfl,
      handleInterrupted_false _ _ rfl]

/-- Witness for claim C5's amended theorem: the base64 chunk `"AA=="`
decodes to the single byte `0x00`, whose length 1 is odd, so the audio
decode fails and the handler only clamps the clock. -/
theorem claim5_malformed_witness :
    (("AA==" : String) ≠ "" ∧ decode "AA==" = some [0] ∧
      decodeAudioData [0] OUTPUT_AUDIO_SAMPLE_RATE AUDIO_NUM_CHANNELS = none) ∧
    (decodeAudioData [1, 2, 3] 24000 1 = none ↔
      ([1, 2, 3].length % 2 ≠ 0 ∨ [1, 2, 3].length = 0)) ∧
    handleLiveMessage ⟨0, [], "", "", []⟩ (audioDeltaMsg "AA==") 1 0 0 =
      { (⟨0, [], "", "", []⟩ : LiveState) with nextStartTime := max (0 : ℚ) 1 } :=
  ⟨⟨by decide, by decide, by decide⟩,
    (claim5_malformed_amended 24000 ⟨0, [], "", "", []⟩ 1 0 0 "AA==" [0]
      (by decide) (by decide) (by decide)).1 [1, 2, 3],
    (claim5_malformed_amended 24000 ⟨0, [], "", "", []⟩ 1 0 0 "AA==" [0]
      (by decide) (by decide) (by decide)).2⟩

/-- Counterexample to claim C6 as stated: the in-range sample `3/65536`
scales to `1.5`; the `Int16Array` store truncates it to `1`, while the
claimed `round(sample * 32768)` is `2`. -/
theorem claim6_encode_counterexample :
    createBlobInts [(3 : ℚ)/65536] = [1] ∧
    round ((3 : ℚ)/65536 * 32768) = 2 ∧ (1 : ℤ) ≠ 2 := by
  have e : (3 : ℚ)/65536 * 32768 = 3/2 := by norm_num
  refine ⟨?_, ?_, by decide⟩
  · simp only [createBlobInts, List.map_cons, List.map_nil]
    rw [show jsStoreInt16 ((3 : ℚ)/65536 * 32768) =
      toInt16 (ratTrunc ((3 : ℚ)/65536 * 32768)) from rfl, e]
    have ht : ratTrunc ((3 : ℚ)/2) = 1 := by
      rw [ratTrunc_eq_floor_ceil, if_pos (by norm_num)]
      exact Int.floor_eq_iff.2 (by constructor <;> norm_num)
    rw [ht, show toInt16 1 = 1 by decide]
  · rw [e, round_eq, show (3 : ℚ)/2 + 1/2 = ((2 : ℤ) : ℚ) by norm_num,
      Int.floor_intCast]

/-- Claim C6 (amended): `createBlob` maps each sample `s` to the signed
16-bit integer obtained by truncating `s * 32768` toward zero and wrapping
it modulo 2^16 into `[-32768, 32768)` (so out-of-range input wraps rather
than clamps), packs the integers as little-endian byte pairs, base64
encodes them, and tags the result with mimeType `audio/pcm;rate=16000`;
the function is pure and total.  The original claim's `round` is wrong:
the store truncates (see the counterexample). -/
theorem claim6_encode_amended (samples : List ℚ) :
    (createBlob samples).mimeType = "audio/pcm;rate=16000" ∧
    (createBlob samples).data =
      String.mk (b64Encode ((samples.map fun s =>
        toInt16 (ratTrunc (s * 32768))).flatMap int16ToBytes)) ∧
    ∀ s ∈ samples, -32768 ≤ jsStoreInt16 (s * 32768) ∧
      jsStoreInt16 (s * 32768) < 32768 ∧
      jsStoreInt16 (s * 32768) % 65536 = ratTrunc (s * 32768) % 65536 := by
  refine ⟨rfl, rfl, ?_⟩
  intro s _
  have h1 := toInt16_range (ratTrunc (s * 32768))
  exact ⟨h1.1, h1.2, toInt16_emod _⟩

/-- Witness for claim C6's amended theorem at the sample list `[1/2]`. -/
theorem claim6_encode_witness :
    (createBlob [(1 : ℚ)/2]).mimeType = "audio/pcm;rate=16000" ∧
    (-32768 ≤ jsStoreInt16 ((1 : ℚ)/2 * 32768) ∧
      jsStoreInt16 ((1 : ℚ)/2 * 32768) < 32768 ∧
      jsStoreInt16 ((1 : ℚ)/2 * 32768) % 65536 = ratTrunc ((1 : ℚ)/2 * 32768) % 65536) :=
  ⟨(claim6_encode_amended [(1 : ℚ)/2]).1,
    (claim6_encode_amended [(1 : ℚ)/2]).2.2 ((1 : ℚ)/2) (by simp)⟩

/-- Claim C7: `stopRecording` is an idempotent total function (it catches
its own close failures, so it never throws): from any component state
satisfying the program invariant that playback sources and the schedule
clock live only under an open output audio context, one call releases
every handle (all six refs null), empties the playback-source set, zeroes
`nextStartTime` and lowers both flags — i.e. it lands exactly on the
never-started initial state — a second call is a no-op, and calling it
when no session was ever started is also a no-op. -/
theorem claim7_idempotent_teardown (s : RecorderState)
    (hinv : s.outputAudioContext = false → s.playbackSources = [] ∧ s.nextStartTime = 0) :
    stopRecording s = initialRecorderState ∧
    stopRecording (stopRecording s) = stopRecording s ∧
    stopRecording initialRecorderState = initialRecorderState := by
  have h0 : stopRecording initialRecorderState = initialRecorderState := rfl
  have h1 : stopRecording s = initialRecorderState := by
    obtain ⟨ms, mss, sp, ac, oac, ls, srcs, nst, ir, il⟩ := s
    cases oac
    · obtain ⟨h2, h3⟩ := hinv rfl
      subst h2 h3
      cases ms <;> cases mss <;> cases sp <;> cases ac <;> cases ls <;>
        simp [stopRecording, initialRecorderState]
    · cases ms <;> cases mss <;> cases sp <;> cases ac <;> cases ls <;>
        simp [stopRecording, initialRecorderState]
  exact ⟨h1, by rw [h1, h0], h0⟩

/-- Witness for claim C7's theorem at a fully-acquired state (all six
handles held, one scheduled source, a nonzero clock, both flags up). -/
theorem claim7_idempotent_teardown_witness :
    stopRecording ⟨true, true, true, true, true, true, [1], 5, true, true⟩ =
      initialRecorderState ∧
    stopRecording (stopRecording ⟨true, true, true, true, true, true, [1], 5, true, true⟩) =
      stopRecording ⟨true, true, true, true, true, true, [1], 5, true, true⟩ ∧
    stopRecording initialRecorderState = initialRecorderState :=
  claim7_idempotent_teardown ⟨true, true, true, true, true, true, [1], 5, true, true⟩
    (fun h => absurd h (by decide))

/-- Counterexample to claim C9 as stated: on a parse failure with raw
response text `"x"`, the returned `timeframes` are empty as claimed, but
`analysisText` is not the raw response text — the code prepends the fixed
diagnostic prefix. -/
theorem claim9_degradation_counterexample :
    (analyzeVideoTranscriptForInfo (fun _ => none) "x").timeframes = [] ∧
    (analyzeVideoTranscriptForInfo (fun _ => none) "x").analysisText ≠ "x" := by
  constructor
  · rfl
  · decide

/-- Claim C9 (amended): whenever the structured analysis response text
cannot be parsed as JSON, `analyzeVideoTranscriptForInfo` does not fail;
it returns a value whose timeframes sequence is empty and whose
`analysisText` is the fixed prefix
`Failed to parse structured analysis. Raw response: ` followed by the raw
response text (not the raw text alone, as originally claimed; no schema
check is performed on a successful parse). -/
theorem claim9_degradation_amended (parseJson : String → Option AnalysisOutput)
    (responseText : String) (h : parseJson (jsTrim responseText) = none) :
    analyzeVideoTranscriptForInfo parseJson responseText =
      { analysisText := "Failed to parse structured analysis. Raw response: " ++ responseText
        timeframes := [] } := by
  unfold analyzeVideoTranscriptForInfo
  rw [h]

/-- Witness for claim C9's amended theorem with an always-failing parse
and raw text `"x"`. -/
theorem claim9_degradation_witness :
    ((fun _ : String => (none : Option AnalysisOutput)) (jsTrim "x") = none) ∧
    analyzeVideoTranscriptForInfo (fun _ => none) "x" =
      { analysisText := "Failed to parse structured analysis. Raw response: " ++ "x"
        timeframes := [] } :=
  ⟨rfl, claim9_degradation_amended (fun _ => none) "x" rfl⟩

end SubtitleStory
